import Mathlib

/-!
Verification of the QuantPulse Session & Sync Orchestration Layer.

This file gives a shallow embedding of the three core components of the
frontend (holdings aggregator, sync orchestrator state machine, and the
authenticated transport's 401-refresh-retry interceptor) and proves the
specified properties about them.

Monetary quantities (`number` in TypeScript) are modelled as exact
rationals (`ℚ`); nullable numbers (`change_24h?: number | null`) as
`Option ℚ`.  JavaScript `Map` objects keyed by symbol are modelled as
insertion-ordered lists of rows with pairwise-distinct symbols, which is
exactly the iteration order `Array.from(map.values())` exposes.  Widget
state that is purely display-side (progress percentage, countdown caption)
is omitted from the orchestrator state.
-/

namespace QuantPulse

/-- The raw holding record, from `src/frontend/types/dashboard.ts`
(`DetailedHoldingItem extends HoldingItem`).  Optional / nullable fields
become `Option`. -/
structure DetailedHoldingItem where
  symbol : String
  name : String
  icon_url : Option String
  price : ℚ
  price_usd : ℚ
  currency : Option String
  balance : ℚ
  value_usd : ℚ
  change_24h : Option ℚ
  integration_id : String
  integration_name : String
  provider_id : String
  asset_type : String
deriving DecidableEq, Repr

/-- JavaScript truthiness test for an optional string: `null`, `undefined`
and the empty string are falsy. -/
def strFalsy : Option String → Bool
  | none => true
  | some s => s.isEmpty

/-- First occurrence of a symbol seeds the aggregate
(`map.set(item.symbol, { ...item, integration_name: "Multiple",
provider_id: "multiple" })` in `aggregateBySymbol`). -/
def seedItem (item : DetailedHoldingItem) : DetailedHoldingItem :=
  { item with integration_name := "Multiple", provider_id := "multiple" }

/-- The merge performed by `aggregateBySymbol` when a later row shares the
symbol of an existing aggregate (the `else` branch of the loop body in
`src/frontend/app/dashboard/portfolio/page.tsx`).  `existing.change_24h || 0`
is `Option.getD 0` on the model: for a present rational `c` the JS
expression evaluates to `c` when `c ≠ 0` and to `0` when `c = 0`, which is
`c` either way. -/
def mergeItem (existing item : DetailedHoldingItem) : DetailedHoldingItem :=
  let totalVal := existing.value_usd + item.value_usd
  let totalBal := existing.balance + item.balance
  let existingWeight := existing.value_usd * (existing.change_24h.getD 0)
  let itemWeight := item.value_usd * (item.change_24h.getD 0)
  let newChange := if 0 < totalVal then (existingWeight + itemWeight) / totalVal else 0
  { existing with
      value_usd := totalVal
      balance := totalBal
      change_24h := some newChange
      price_usd := if 0 < totalBal then totalVal / totalBal else existing.price_usd
      icon_url :=
        if strFalsy existing.icon_url && !(strFalsy item.icon_url) then item.icon_url
        else existing.icon_url }

/-- One iteration of the `for (const item of items)` loop: `map.has` /
`map.set` on a symbol-keyed insertion-ordered map, with in-place mutation
of the stored aggregate in the `else` branch. -/
def upsertBySymbol (acc : List DetailedHoldingItem) (item : DetailedHoldingItem) :
    List DetailedHoldingItem :=
  if acc.any (fun e => e.symbol == item.symbol) then
    acc.map (fun e => if e.symbol == item.symbol then mergeItem e item else e)
  else
    acc ++ [seedItem item]

/-- The function `aggregateBySymbol` of
`src/frontend/app/dashboard/portfolio/page.tsx`: fold the rows into a
symbol-keyed map and return the values in insertion order. -/
def aggregateBySymbol (items : List DetailedHoldingItem) : List DetailedHoldingItem :=
  items.foldl upsertBySymbol []

/-- The symbols of a list of rows, in order. -/
def symsOf (l : List DetailedHoldingItem) : List String :=
  l.map (fun r => r.symbol)

/-- Sentinel labels every aggregated row carries. -/
def hasSentinelLabels (r : DetailedHoldingItem) : Prop :=
  r.integration_name = "Multiple" ∧ r.provider_id = "multiple"

/-- Sum of a numeric field over a list of rows. -/
def sumOf (f : DetailedHoldingItem → ℚ) (l : List DetailedHoldingItem) : ℚ :=
  (l.map f).sum

/-- Total USD value of a list of rows. -/
def vSum : List DetailedHoldingItem → ℚ := sumOf (fun r => r.value_usd)

/-- Total balance of a list of rows. -/
def bSum : List DetailedHoldingItem → ℚ := sumOf (fun r => r.balance)

/-- Total value-weighted 24h change of a list of rows. -/
def vcSum : List DetailedHoldingItem → ℚ :=
  sumOf (fun r => r.value_usd * (r.change_24h.getD 0))

/-- The rows of one symbol, in input order. -/
def rowsFor (s : String) (l : List DetailedHoldingItem) : List DetailedHoldingItem :=
  l.filter (fun r => r.symbol == s)

/-- The evolution of one map entry under the aggregation loop: seeded by the
first row of its symbol, merged with each later one. -/
def symStep (acc : Option DetailedHoldingItem) (x : DetailedHoldingItem) :
    Option DetailedHoldingItem :=
  some (match acc with
        | none => seedItem x
        | some e => mergeItem e x)

/-- Fold one symbol's rows into the entry `aggregateBySymbol` would store. -/
def symFold (l : List DetailedHoldingItem) : Option DetailedHoldingItem :=
  l.foldl symStep none

/-- The numeric fields of an aggregated row that the order-independence
property talks about. -/
def aggView (r : DetailedHoldingItem) : ℚ × ℚ × Option ℚ × ℚ :=
  (r.value_usd, r.balance, r.change_24h, r.price_usd)

/-- Concrete row: symbol X, 100 USD at +10% daily change. -/
def xRow100 : DetailedHoldingItem :=
  { symbol := "X", name := "X Coin", icon_url := none, price := 100, price_usd := 100,
    currency := some "USD", balance := 1, value_usd := 100, change_24h := some 10,
    integration_id := "a", integration_name := "Integration A", provider_id := "provA",
    asset_type := "crypto" }

/-- Concrete row: symbol X, 300 USD at -2% daily change. -/
def xRow300 : DetailedHoldingItem :=
  { xRow100 with
      value_usd := 300
      balance := 3
      change_24h := some (-2)
      integration_id := "b"
      integration_name := "Integration B"
      provider_id := "provB" }

/-- Concrete row: BTC, 0.5 at 60000 USD, +5% daily change (Integration A). -/
def btcRowA : DetailedHoldingItem :=
  { symbol := "BTC", name := "Bitcoin", icon_url := none, price := 60000, price_usd := 60000,
    currency := some "USD", balance := 1/2, value_usd := 30000, change_24h := some 5,
    integration_id := "a", integration_name := "Integration A", provider_id := "provA",
    asset_type := "crypto" }

/-- Concrete row: BTC, 0.25 at 60000 USD, -1% daily change (Integration B). -/
def btcRowB : DetailedHoldingItem :=
  { btcRowA with
      balance := 1/4
      value_usd := 15000
      change_24h := some (-1)
      integration_id := "b"
      integration_name := "Integration B"
      provider_id := "provB" }

/-- Concrete row with zero balance and zero value, unit price 1. -/
def zeroBalRow1 : DetailedHoldingItem :=
  { symbol := "X", name := "X Coin", icon_url := none, price := 1, price_usd := 1,
    currency := some "USD", balance := 0, value_usd := 0, change_24h := some 0,
    integration_id := "a", integration_name := "Integration A", provider_id := "provA",
    asset_type := "crypto" }

/-- Concrete row with zero balance and zero value, unit price 2. -/
def zeroBalRow2 : DetailedHoldingItem :=
  { zeroBalRow1 with price_usd := 2, integration_id := "b" }

/-! Sync orchestrator.  Two widget revisions are deployed: `SyncWidget.tsx`
(variant A, with a COOLDOWN state and last-sync-anchored scheduling) and the
revision embedded in `ErrorBoundary.tsx` (variant B, no COOLDOWN, stuck-poll
counter, epoch-anchored scheduling).  Statuses are the literal strings of
the code. -/

/-- Variant B widget state (`ErrorBoundary.tsx` revision). -/
structure SyncStateB where
  status : String
  taskId : Option String
  pendingCount : ℕ
  syncMessage : String
  isSyncing : Bool
  autoSyncInterval : Option ℤ
  nextAutoSyncTime : Option ℤ
deriving DecidableEq, Repr

/-- Variant A widget state (`SyncWidget.tsx`). -/
structure SyncStateA where
  status : String
  taskId : Option String
  cooldownRemaining : ℕ
  syncMessage : String
  isSyncing : Bool
  autoSyncInterval : Option ℤ
  nextAutoSyncTime : Option ℤ
deriving DecidableEq, Repr

/-- Outcome of the `POST /dashboard/refresh` job-start call. -/
inductive StartResult where
  | ok (taskId : String)
  | rateLimited (retryAfter : Option ℕ)
  | failed
deriving DecidableEq, Repr

/-- The scheduling formula of variant B (three occurrences in the source):
`Math.ceil((now.getTime() + 1000) / msPerInterval) * msPerInterval` with
`msPerInterval = interval * 1000`. -/
def nextAutoSyncEpoch (now L : ℤ) : ℤ :=
  ⌈((now + 1000 : ℤ) : ℚ) / ((L * 1000 : ℤ) : ℚ)⌉ * (L * 1000)

/-- The scheduling formula of variant A: `anchor.getTime() + interval * 1000`,
where the anchor is the last-sync time on load and `Date.now()` on success. -/
def nextAutoSyncAnchored (anchor L : ℤ) : ℤ := anchor + L * 1000

/-- Variant B `handleSync`: the status guard, optimistic transition to
SYNCING, and the job-start POST with its three outcomes.  Returns the new
state and the number of job-start requests issued. -/
def handleSyncB (s : SyncStateB) (r : StartResult) : SyncStateB × ℕ :=
  if s.status = "SYNCING" then (s, 0)
  else
    let s1 := { s with
      nextAutoSyncTime := (none : Option ℤ)
      status := "SYNCING"
      syncMessage := "Initializing..."
      isSyncing := true }
    match r with
    | .ok tid => ({ s1 with taskId := some tid }, 1)
    | .rateLimited _ => ({ s1 with status := "IDLE", isSyncing := false }, 1)
    | .failed => ({ s1 with status := "ERROR", isSyncing := false }, 1)

/-- Variant A `handleSync`: also refuses while COOLDOWN, and a 429 enters
COOLDOWN with `retry_after || 20` seconds. -/
def handleSyncA (s : SyncStateA) (r : StartResult) : SyncStateA × ℕ :=
  if s.status = "SYNCING" ∨ s.status = "COOLDOWN" then (s, 0)
  else
    let s1 := { s with
      nextAutoSyncTime := (none : Option ℤ)
      status := "SYNCING"
      syncMessage := "Initializing..."
      isSyncing := true }
    match r with
    | .ok tid => ({ s1 with taskId := some tid }, 1)
    | .rateLimited retryAfter =>
        let ra := match retryAfter with
          | some n => if n = 0 then 20 else n
          | none => 20
        ({ s1 with status := "COOLDOWN", isSyncing := false, cooldownRemaining := ra }, 1)
    | .failed => ({ s1 with status := "ERROR", isSyncing := false }, 1)

/-- One answer of `GET /dashboard/status/{task_id}`. -/
structure PollResp where
  status : String
  message : Option String
  stage : Option String
deriving DecidableEq, Repr

/-- Variant B poll tick (the `setInterval` body of the polling effect in the
`ErrorBoundary.tsx` revision).  The effect is only installed while
`status === "SYNCING" && taskId`, hence the outer guard. -/
def pollStepB (now : ℤ) (s : SyncStateB) (r : PollResp) : SyncStateB :=
  if s.status ≠ "SYNCING" ∨ s.taskId = none then s
  else
    let s1 := match r.message with
      | some m => { s with syncMessage := m }
      | none => s
    let s2 := if r.status = "PENDING" then
        { s1 with syncMessage := "Queued...", pendingCount := s1.pendingCount + 1 }
      else
        { s1 with pendingCount := 0 }
    if r.status = "PENDING" ∧ 12 < s2.pendingCount then
      { s2 with
          status := "ERROR"
          taskId := none
          syncMessage := "Sync Timeout"
          isSyncing := false }
    else if r.status = "SUCCESS" ∨ r.stage = some "DONE" then
      { s2 with
          status := "SUCCESS"
          isSyncing := false
          nextAutoSyncTime := match s.autoSyncInterval with
            | some L => if L ≠ 0 then some (nextAutoSyncEpoch now L) else s.nextAutoSyncTime
            | none => s.nextAutoSyncTime }
    else if r.status = "FAILURE" ∨ r.status = "REVOKED" then
      { s2 with
          status := "ERROR"
          taskId := none
          syncMessage := "Sync Failed"
          isSyncing := false }
    else s2

/-- Variant A poll tick (`SyncWidget.tsx` polling effect): no PENDING
handling at all. -/
def pollStepA (now : ℤ) (s : SyncStateA) (r : PollResp) : SyncStateA :=
  if s.status ≠ "SYNCING" ∨ s.taskId = none then s
  else
    let s1 := match r.message with
      | some m => { s with syncMessage := m }
      | none => s
    if r.status = "SUCCESS" ∨ r.stage = some "DONE" then
      { s1 with
          status := "SUCCESS"
          isSyncing := false
          nextAutoSyncTime := match s.autoSyncInterval with
            | some L => if L ≠ 0 then some (nextAutoSyncAnchored now L) else s.nextAutoSyncTime
            | none => s.nextAutoSyncTime }
    else if r.status = "FAILURE" then
      { s1 with status := "ERROR", taskId := none, isSyncing := false }
    else s1

/-- The `setTimeout(() => setStatus("IDLE"), 3000)` callback scheduled on an
ERROR transition. -/
def errorRevertB (s : SyncStateB) : SyncStateB := { s with status := "IDLE" }

/-- The mock backend of the stuck-job scenario: every status poll answers
`PENDING` with no progress info. -/
def alwaysPending : PollResp := { status := "PENDING", message := none, stage := none }

/-- The 1-second UI timer tick of variant B, restricted to its auto-sync
branch: fires `handleSync` only while IDLE with an expired countdown. -/
def timerTickB (now : ℤ) (s : SyncStateB) (r : StartResult) : SyncStateB × ℕ :=
  match s.nextAutoSyncTime with
  | some nt =>
      if s.status = "IDLE" then
        if ⌈((nt - now : ℤ) : ℚ) / 1000⌉ ≤ 0 then handleSyncB s r else (s, 0)
      else (s, 0)
  | none => (s, 0)

/-- A sequence of refresh invocations (clicks / timer firings funnelled into
`handleSync`), with the job-start outcomes each would receive, and the total
number of job-start requests actually issued. -/
def runRefreshB : SyncStateB → List StartResult → SyncStateB × ℕ
  | s, [] => (s, 0)
  | s, r :: rest =>
      let p := handleSyncB s r
      let q := runRefreshB p.1 rest
      (q.1, p.2 + q.2)

/-- A variant A state in the middle of a sync, used by concrete scenarios. -/
def stuckStateA : SyncStateA :=
  { status := "SYNCING", taskId := some "task-1", cooldownRemaining := 0,
    syncMessage := "Initializing...", isSyncing := true,
    autoSyncInterval := none, nextAutoSyncTime := none }

/-- A variant B state in the middle of a sync, used by concrete scenarios. -/
def syncingStateB : SyncStateB :=
  { status := "SYNCING", taskId := some "task-1", pendingCount := 0,
    syncMessage := "Initializing...", isSyncing := true,
    autoSyncInterval := none, nextAutoSyncTime := none }

/-- An idle variant B state, used by concrete scenarios. -/
def idleStateB : SyncStateB :=
  { status := "IDLE", taskId := none, pendingCount := 0,
    syncMessage := "Initializing...", isSyncing := false,
    autoSyncInterval := some 300, nextAutoSyncTime := none }

/-! Authenticated transport (`src/frontend/lib/api.ts`): request interceptor
attaching the bearer token, and the response interceptor implementing the
401 refresh-and-retry protocol. -/

/-- Bool test: does the first character list start with the second. -/
def charsLead : List Char → List Char → Bool
  | _, [] => true
  | [], _ :: _ => false
  | a :: as, b :: bs => (a = b) && charsLead as bs

/-- Bool test: does the first character list contain the second as a
contiguous run. -/
def charsHaveSub : List Char → List Char → Bool
  | [], needle => needle.isEmpty
  | h :: t, needle => charsLead (h :: t) needle || charsHaveSub t needle

/-- JavaScript `hay.includes(needle)` on strings. -/
def jsIncludes (hay needle : String) : Bool :=
  charsHaveSub hay.toList needle.toList

/-- Client-side credential store plus the forced-navigation target:
`localStorage` keys `token` / `refreshToken`, the axios default
Authorization header, and `window.location.href` (`none` = untouched). -/
structure ClientState where
  token : Option String
  refreshToken : Option String
  defaultAuth : Option String
  location : Option String
deriving DecidableEq, Repr

/-- An outbound request: url, the `_retry` mark, and its Authorization
header. -/
structure ApiRequest where
  url : String
  retryFlag : Bool
  authHeader : Option String
deriving DecidableEq, Repr

/-- A raw HTTP result: a fulfilled response, or an axios error with an
optional HTTP status (`none` = network error without a response). -/
inductive HttpReply where
  | ok (code : ℕ) (body : ℕ)
  | err (status : Option ℕ) (body : ℕ)
deriving DecidableEq, Repr

/-- The value an `api(...)` promise can reject with: the original axios
error, or the error raised by the `/auth/refresh` call. -/
inductive RejectVal where
  | httpErr (status : Option ℕ) (body : ℕ)
  | refreshErr (eid : ℕ)
deriving DecidableEq, Repr

/-- A backend double: `respond` serves every non-refresh endpoint,
`refreshCall` serves `POST /auth/refresh` given the refresh token it was
sent, answering new tokens or an error id. -/
structure Server (σ : Type) where
  respond : σ → ApiRequest → σ × HttpReply
  refreshCall : σ → String → σ × Except ℕ (String × String)

/-- Everything observable about one `api(...)` application call: final
server and client state, the settled outcome, the requests sent to the main
endpoint in order, and the refresh tokens sent to `/auth/refresh`. -/
structure CallResult (σ : Type) where
  server : σ
  client : ClientState
  outcome : Except RejectVal (ℕ × ℕ)
  sent : List ApiRequest
  refreshSent : List String

/-- The request interceptor: attach `Authorization: Bearer <token>` when a
token is stored. -/
def attachAuth (st : ClientState) (req : ApiRequest) : ApiRequest :=
  match st.token with
  | some t => { req with authHeader := some ("Bearer " ++ t) }
  | none => req

/-- Replay `api(originalRequest)` of a request already marked `_retry`: the
full pipeline runs again, but the response interceptor's 401 branch is
disabled by the retry mark, so every failure is rejected unchanged.  Returns
the new server state, the outcome, and the request as actually sent. -/
def apiReplay {σ : Type} (sv : Server σ) (s : σ) (st : ClientState) (req : ApiRequest) :
    σ × Except RejectVal (ℕ × ℕ) × ApiRequest :=
  let req1 := attachAuth st req
  let p := sv.respond s req1
  match p.2 with
  | .ok c b => (p.1, .ok (c, b), req1)
  | .err status body => (p.1, .error (.httpErr status body), req1)

/-- One application-level `api(...)` call through both interceptors of
`src/frontend/lib/api.ts`. -/
def apiCall {σ : Type} (sv : Server σ) (s : σ) (st : ClientState) (req : ApiRequest) :
    CallResult σ :=
  let req1 := attachAuth st req
  let p := sv.respond s req1
  match p.2 with
  | .ok c b => ⟨p.1, st, .ok (c, b), [req1], []⟩
  | .err status body =>
    if status = some 401 ∧ req1.retryFlag = false then
      if jsIncludes req1.url "/auth/token" || jsIncludes req1.url "/auth/register" then
        ⟨p.1, st, .error (.httpErr status body), [req1], []⟩
      else
        match st.refreshToken with
        | none =>
          ⟨p.1, { st with token := none, refreshToken := none, location := some "/login" },
            .error (.httpErr status body), [req1], []⟩
        | some rt =>
          let q := sv.refreshCall p.1 rt
          match q.2 with
          | .error eid =>
            ⟨q.1, { st with token := none, refreshToken := none, location := some "/login" },
              .error (.refreshErr eid), [req1], [rt]⟩
          | .ok (newAccess, newRefresh) =>
            let st1 := { st with
              token := some newAccess
              refreshToken := some newRefresh
              defaultAuth := some ("Bearer " ++ newAccess) }
            let req3 := { req1 with retryFlag := true, authHeader := some ("Bearer " ++ newAccess) }
            let rp := apiReplay sv q.1 st1 req3
            ⟨rp.1, st1, rp.2.1, [req1, rp.2.2], [rt]⟩
    else
      ⟨p.1, st, .error (.httpErr status body), [req1], []⟩

/-- The mock backend of the refresh-retry scenario: first main-endpoint call
answers 401, later calls answer 200; refresh always succeeds with fresh
tokens. -/
def onceFlaky (errBody okBody : ℕ) (newAccess newRefresh : String) : Server ℕ :=
  { respond := fun n _ => (n + 1, if n = 0 then .err (some 401) errBody else .ok 200 okBody)
    refreshCall := fun n _ => (n, .ok (newAccess, newRefresh)) }

/-- A backend whose main endpoint always answers 401 and whose refresh
endpoint gives a fixed outcome. -/
def always401 (errBody : ℕ) (refreshOutcome : Except ℕ (String × String)) : Server ℕ :=
  { respond := fun n _ => (n + 1, .err (some 401) errBody)
    refreshCall := fun n _ => (n, refreshOutcome) }

end QuantPulse

namespace QuantPulse

theorem mergeItem_symbol (e x : DetailedHoldingItem) : (mergeItem e x).symbol = e.symbol := rfl

theorem seedItem_symbol (x : DetailedHoldingItem) : (seedItem x).symbol = x.symbol := rfl

theorem mergeItem_value (e x : DetailedHoldingItem) :
    (mergeItem e x).value_usd = e.value_usd + x.value_usd := rfl

theorem mergeItem_balance (e x : DetailedHoldingItem) :
    (mergeItem e x).balance = e.balance + x.balance := rfl

theorem mergeItem_change (e x : DetailedHoldingItem) :
    (mergeItem e x).change_24h = some (if 0 < e.value_usd + x.value_usd
      then (e.value_usd * (e.change_24h.getD 0) + x.value_usd * (x.change_24h.getD 0)) /
        (e.value_usd + x.value_usd)
      else 0) := rfl

theorem mergeItem_price (e x : DetailedHoldingItem) :
    (mergeItem e x).price_usd = if 0 < e.balance + x.balance
      then (e.value_usd + x.value_usd) / (e.balance + x.balance)
      else e.price_usd := rfl

theorem seedItem_fields (x : DetailedHoldingItem) :
    (seedItem x).value_usd = x.value_usd ∧ (seedItem x).balance = x.balance ∧
    (seedItem x).change_24h = x.change_24h ∧ (seedItem x).price_usd = x.price_usd :=
  ⟨rfl, rfl, rfl, rfl⟩

theorem seedItem_eq_self (r : DetailedHoldingItem) (h : hasSentinelLabels r) :
    seedItem r = r := by
  cases r
  simp only [seedItem]
  obtain ⟨h1, h2⟩ := h
  simp_all

theorem symsOf_map_merge (acc : List DetailedHoldingItem) (x : DetailedHoldingItem) :
    symsOf (acc.map (fun e => if e.symbol == x.symbol then mergeItem e x else e)) =
      symsOf acc := by
  simp only [symsOf, List.map_map]
  apply List.map_congr_left
  intro e _
  by_cases h : e.symbol = x.symbol <;> simp [h, mergeItem_symbol]

theorem symsOf_append (l1 l2 : List DetailedHoldingItem) :
    symsOf (l1 ++ l2) = symsOf l1 ++ symsOf l2 := by
  simp [symsOf]

theorem symsOf_upsert_mem (acc : List DetailedHoldingItem) (x : DetailedHoldingItem) (s : String) :
    s ∈ symsOf (upsertBySymbol acc x) ↔ s ∈ symsOf acc ∨ s = x.symbol := by
  unfold upsertBySymbol
  by_cases h : acc.any (fun e => e.symbol == x.symbol) = true
  · rw [if_pos h, symsOf_map_merge]
    have hx : x.symbol ∈ symsOf acc := by
      rcases List.any_eq_true.mp h with ⟨e, he, hee⟩
      have : e.symbol = x.symbol := by simpa using hee
      exact this ▸ List.mem_map_of_mem _ he
    constructor
    · exact Or.inl
    · rintro (hs | rfl)
      · exact hs
      · exact hx
  · rw [if_neg h, symsOf_append]
    simp [symsOf, seedItem_symbol]

theorem symsOf_nodup_upsert (acc : List DetailedHoldingItem) (x : DetailedHoldingItem)
    (h : (symsOf acc).Nodup) : (symsOf (upsertBySymbol acc x)).Nodup := by
  unfold upsertBySymbol
  by_cases ha : acc.any (fun e => e.symbol == x.symbol) = true
  · rw [if_pos ha, symsOf_map_merge]; exact h
  · rw [if_neg ha, symsOf_append]
    have hx : x.symbol ∉ symsOf acc := by
      intro hmem
      rcases List.mem_map.mp hmem with ⟨e, he, hee⟩
      exact ha (List.any_eq_true.mpr ⟨e, he, by simpa using hee⟩)
    have hcons : symsOf [seedItem x] = [x.symbol] := by simp [symsOf, seedItem_symbol]
    rw [hcons]
    refine List.Nodup.append h (List.nodup_singleton _) ?_
    exact List.disjoint_singleton.mpr hx

theorem labels_upsert (acc : List DetailedHoldingItem) (x : DetailedHoldingItem)
    (h : ∀ r ∈ acc, hasSentinelLabels r) :
    ∀ r ∈ upsertBySymbol acc x, hasSentinelLabels r := by
  unfold upsertBySymbol
  by_cases ha : acc.any (fun e => e.symbol == x.symbol) = true
  · rw [if_pos ha]
    intro r hr
    rcases List.mem_map.mp hr with ⟨e, he, rfl⟩
    by_cases hs : e.symbol = x.symbol
    · have := h e he
      simp only [hs, if_pos, beq_self_eq_true]
      exact ⟨this.1, this.2⟩
    · simpa [hs] using h e he
  · rw [if_neg ha]
    intro r hr
    rcases List.mem_append.mp hr with hl | hr1
    · exact h r hl
    · rcases List.mem_singleton.mp hr1 with rfl
      exact ⟨rfl, rfl⟩

theorem foldl_syms_nodup (l : List DetailedHoldingItem) :
    ∀ acc, (symsOf acc).Nodup → (symsOf (l.foldl upsertBySymbol acc)).Nodup := by
  induction l with
  | nil => intro acc h; exact h
  | cons x t ih => intro acc h; exact ih _ (symsOf_nodup_upsert acc x h)

theorem foldl_labels (l : List DetailedHoldingItem) :
    ∀ acc, (∀ r ∈ acc, hasSentinelLabels r) →
      ∀ r ∈ l.foldl upsertBySymbol acc, hasSentinelLabels r := by
  induction l with
  | nil => intro acc h; exact h
  | cons x t ih => intro acc h; exact ih _ (labels_upsert acc x h)

theorem foldl_syms_mem (l : List DetailedHoldingItem) :
    ∀ acc s, s ∈ symsOf (l.foldl upsertBySymbol acc) ↔ s ∈ symsOf acc ∨ s ∈ symsOf l := by
  induction l with
  | nil => intro acc s; simp [symsOf]
  | cons x t ih =>
    intro acc s
    rw [List.foldl_cons, ih, symsOf_upsert_mem]
    constructor
    · rintro ((hs | rfl) | hs)
      · exact Or.inl hs
      · exact Or.inr (by simp [symsOf])
      · exact Or.inr (by simp [symsOf]; right; simpa [symsOf] using hs)
    · rintro (hs | hs)
      · exact Or.inl (Or.inl hs)
      · rcases (by simpa [symsOf] using hs : s = x.symbol ∨ s ∈ symsOf t) with rfl | hs2
        · exact Or.inl (Or.inr rfl)
        · exact Or.inr hs2

theorem agg_syms_nodup (items : List DetailedHoldingItem) :
    (symsOf (aggregateBySymbol items)).Nodup :=
  foldl_syms_nodup items [] (by simp [symsOf])

theorem agg_labels (items : List DetailedHoldingItem) :
    ∀ r ∈ aggregateBySymbol items, hasSentinelLabels r :=
  foldl_labels items [] (by simp)

theorem agg_syms_mem (items : List DetailedHoldingItem) (s : String) :
    s ∈ symsOf (aggregateBySymbol items) ↔ s ∈ symsOf items := by
  rw [aggregateBySymbol, foldl_syms_mem]
  simp [symsOf]

theorem foldl_fixed (l : List DetailedHoldingItem) :
    ∀ acc, (symsOf (acc ++ l)).Nodup → (∀ r ∈ l, hasSentinelLabels r) →
      l.foldl upsertBySymbol acc = acc ++ l := by
  induction l with
  | nil => intro acc _ _; simp
  | cons x t ih =>
    intro acc hnd hlab
    have hx : x.symbol ∉ symsOf acc := by
      rw [symsOf_append] at hnd
      have hdisj := (List.nodup_append.mp hnd).2.2
      intro hmem
      exact hdisj hmem (by simp [symsOf])
    have hany : acc.any (fun e => e.symbol == x.symbol) = false := by
      rw [List.any_eq_false]
      intro e he heq
      have heq2 : e.symbol = x.symbol := by simpa using heq
      exact hx (heq2 ▸ List.mem_map_of_mem _ he)
    have hstep : upsertBySymbol acc x = acc ++ [x] := by
      rw [upsertBySymbol, hany]
      simp [seedItem_eq_self x (hlab x (by simp))]
    rw [List.foldl_cons, hstep, ih (acc ++ [x])]
    · simp
    · simpa using hnd
    · intro r hr; exact hlab r (by simp [hr])

theorem sumOf_cons (f : DetailedHoldingItem → ℚ) (a : DetailedHoldingItem)
    (t : List DetailedHoldingItem) : sumOf f (a :: t) = f a + sumOf f t := by
  simp [sumOf]

theorem sumOf_append (f : DetailedHoldingItem → ℚ) (l1 l2 : List DetailedHoldingItem) :
    sumOf f (l1 ++ l2) = sumOf f l1 + sumOf f l2 := by
  simp [sumOf]

theorem sumOf_perm (f : DetailedHoldingItem → ℚ) {m m' : List DetailedHoldingItem}
    (h : m.Perm m') : sumOf f m = sumOf f m' :=
  (h.map f).sum_eq

theorem vSum_cons (z : DetailedHoldingItem) (t : List DetailedHoldingItem) :
    vSum (z :: t) = z.value_usd + vSum t := by
  simp [vSum, sumOf]

theorem bSum_cons (z : DetailedHoldingItem) (t : List DetailedHoldingItem) :
    bSum (z :: t) = z.balance + bSum t := by
  simp [bSum, sumOf]

theorem vcSum_cons (z : DetailedHoldingItem) (t : List DetailedHoldingItem) :
    vcSum (z :: t) = z.value_usd * (z.change_24h.getD 0) + vcSum t := by
  simp [vcSum, sumOf]

theorem vSum_append (l1 l2 : List DetailedHoldingItem) :
    vSum (l1 ++ l2) = vSum l1 + vSum l2 := sumOf_append _ l1 l2

theorem bSum_append (l1 l2 : List DetailedHoldingItem) :
    bSum (l1 ++ l2) = bSum l1 + bSum l2 := sumOf_append _ l1 l2

theorem vcSum_append (l1 l2 : List DetailedHoldingItem) :
    vcSum (l1 ++ l2) = vcSum l1 + vcSum l2 := sumOf_append _ l1 l2

theorem sumOf_map_merge (f : DetailedHoldingItem → ℚ)
    (hfm : ∀ e x, f (mergeItem e x) = f e + f x)
    (x : DetailedHoldingItem) :
    ∀ acc : List DetailedHoldingItem, (symsOf acc).Nodup → x.symbol ∈ symsOf acc →
      sumOf f (acc.map (fun e => if e.symbol == x.symbol then mergeItem e x else e)) =
        sumOf f acc + f x := by
  intro acc
  induction acc with
  | nil => intro _ h; simp [symsOf] at h
  | cons a t ih =>
    intro hnd hmem
    obtain ⟨hna, hndt⟩ : a.symbol ∉ symsOf t ∧ (symsOf t).Nodup := by
      simpa [symsOf, List.nodup_cons] using hnd
    by_cases ha : a.symbol = x.symbol
    · rw [ha] at hna
      have hmap : t.map (fun e => if e.symbol == x.symbol then mergeItem e x else e) = t := by
        have hid : t.map (fun e => if e.symbol == x.symbol then mergeItem e x else e) =
            t.map id := by
          apply List.map_congr_left
          intro e he
          have hne : e.symbol ≠ x.symbol := fun heq => hna (heq ▸ List.mem_map_of_mem _ he)
          simp [hne]
        simpa using hid
      rw [List.map_cons, hmap]
      simp only [ha, beq_self_eq_true, if_true]
      rw [sumOf_cons, sumOf_cons, hfm]
      ring
    · have hmemt : x.symbol ∈ symsOf t := by
        rcases (by simpa [symsOf] using hmem : x.symbol = a.symbol ∨ x.symbol ∈ symsOf t) with
          heq | h2
        · exact absurd heq.symm ha
        · exact h2
      rw [List.map_cons]
      have hbeq : (a.symbol == x.symbol) = false := by simpa using ha
      rw [hbeq]
      simp only [Bool.false_eq_true, if_false]
      rw [sumOf_cons, sumOf_cons, ih hndt hmemt]
      ring

theorem sumOf_upsert (f : DetailedHoldingItem → ℚ)
    (hfm : ∀ e x, f (mergeItem e x) = f e + f x)
    (hfs : ∀ x, f (seedItem x) = f x)
    (acc : List DetailedHoldingItem) (x : DetailedHoldingItem)
    (hnd : (symsOf acc).Nodup) :
    sumOf f (upsertBySymbol acc x) = sumOf f acc + f x := by
  unfold upsertBySymbol
  by_cases ha : acc.any (fun e => e.symbol == x.symbol) = true
  · rw [if_pos ha]
    have hx : x.symbol ∈ symsOf acc := by
      rcases List.any_eq_true.mp ha with ⟨e, he, hee⟩
      have : e.symbol = x.symbol := by simpa using hee
      exact this ▸ List.mem_map_of_mem _ he
    exact sumOf_map_merge f hfm x acc hnd hx
  · rw [if_neg ha]
    simp [sumOf, hfs]

theorem foldl_sumOf (f : DetailedHoldingItem → ℚ)
    (hfm : ∀ e x, f (mergeItem e x) = f e + f x)
    (hfs : ∀ x, f (seedItem x) = f x) :
    ∀ (l acc : List DetailedHoldingItem), (symsOf acc).Nodup →
      sumOf f (l.foldl upsertBySymbol acc) = sumOf f acc + sumOf f l := by
  intro l
  induction l with
  | nil => intro acc _; simp [sumOf]
  | cons x t ih =>
    intro acc hnd
    rw [List.foldl_cons, ih _ (symsOf_nodup_upsert acc x hnd),
      sumOf_upsert f hfm hfs acc x hnd, sumOf_cons]
    ring

theorem find?_map_mergeF (x : DetailedHoldingItem) (s : String)
    (acc : List DetailedHoldingItem) :
    ((acc.map (fun e => if e.symbol == x.symbol then mergeItem e x else e)).find?
        (fun r => r.symbol == s)) =
      (acc.find? (fun r => r.symbol == s)).map
        (fun e => if e.symbol == x.symbol then mergeItem e x else e) := by
  induction acc with
  | nil => rfl
  | cons a t ih =>
    have hsym : ((if a.symbol == x.symbol then mergeItem a x else a)).symbol = a.symbol := by
      by_cases h : a.symbol = x.symbol <;> simp [h, mergeItem_symbol]
    by_cases hps : (a.symbol == s) = true
    · have h1 : (((if a.symbol == x.symbol then mergeItem a x else a).symbol == s)) = true := by
        rw [hsym]; exact hps
      rw [List.map_cons,
        @List.find?_cons_of_pos DetailedHoldingItem (fun r => r.symbol == s) _ _ h1,
        @List.find?_cons_of_pos DetailedHoldingItem (fun r => r.symbol == s) _ _ hps]
      rfl
    · have h1 : ¬ (((if a.symbol == x.symbol then mergeItem a x else a).symbol == s)) = true := by
        rw [hsym]; exact hps
      rw [List.map_cons,
        @List.find?_cons_of_neg DetailedHoldingItem (fun r => r.symbol == s) _ _ h1,
        @List.find?_cons_of_neg DetailedHoldingItem (fun r => r.symbol == s) _ _ hps, ih]

theorem find?_aggregate (l : List DetailedHoldingItem) (s : String) :
    (aggregateBySymbol l).find? (fun r => r.symbol == s) = symFold (rowsFor s l) := by
  induction l using List.reverseRecOn with
  | nil => rfl
  | append_singleton l x ih =>
    have hagg : aggregateBySymbol (l ++ [x]) = upsertBySymbol (aggregateBySymbol l) x := by
      rw [aggregateBySymbol, List.foldl_append, List.foldl_cons, List.foldl_nil]
      rfl
    rw [hagg]
    by_cases hx : x.symbol = s
    · have hrows : rowsFor s (l ++ [x]) = rowsFor s l ++ [x] := by
        simp [rowsFor, List.filter_append, hx]
      have hsymfold : symFold (rowsFor s l ++ [x]) = symStep (symFold (rowsFor s l)) x := by
        rw [symFold, List.foldl_append, List.foldl_cons, List.foldl_nil]
        rfl
      rw [hrows, hsymfold]
      by_cases hany : (aggregateBySymbol l).any (fun e => e.symbol == x.symbol) = true
      · have hup : upsertBySymbol (aggregateBySymbol l) x =
            (aggregateBySymbol l).map
              (fun e => if e.symbol == x.symbol then mergeItem e x else e) := by
          rw [upsertBySymbol, if_pos hany]
        rw [hup, find?_map_mergeF, ih]
        have hsome : ((aggregateBySymbol l).find? (fun r => r.symbol == s)).isSome := by
          rw [List.find?_isSome]
          obtain ⟨e, he, hee⟩ := List.any_eq_true.mp hany
          have hes : e.symbol = x.symbol := by simpa using hee
          exact ⟨e, he, by simp [hes, hx]⟩
        rw [ih] at hsome
        obtain ⟨e, he⟩ := Option.isSome_iff_exists.mp hsome
        have hfind : (aggregateBySymbol l).find? (fun r => r.symbol == s) = some e := by
          rw [ih]; exact he
        have hesym : e.symbol = s := by simpa using List.find?_some hfind
        have heb : (e.symbol == x.symbol) = true := by simp [hesym, hx]
        rw [he]
        have hp : e.symbol = x.symbol := by simpa using heb
        simp [symStep, hp]
      · have hup : upsertBySymbol (aggregateBySymbol l) x =
            aggregateBySymbol l ++ [seedItem x] := by
          rw [upsertBySymbol, if_neg hany]
        rw [hup, List.find?_append, ih]
        have hnone : symFold (rowsFor s l) = none := by
          rw [← ih, List.find?_eq_none]
          intro r hr hrs
          apply hany
          apply List.any_eq_true.mpr
          have hrsym : r.symbol = s := by simpa using hrs
          exact ⟨r, hr, by simp [hrsym, hx]⟩
        rw [hnone]
        have hseed : ([seedItem x].find? (fun r => r.symbol == s)) = some (seedItem x) :=
          @List.find?_cons_of_pos DetailedHoldingItem (fun r => r.symbol == s) _ _
            (by simp [seedItem_symbol, hx])
        rw [hseed]
        rfl
    · have hrows : rowsFor s (l ++ [x]) = rowsFor s l := by
        have hxb : (x.symbol == s) = false := by simpa using hx
        simp [rowsFor, List.filter_append, hxb]
      rw [hrows, ← ih]
      by_cases hany : (aggregateBySymbol l).any (fun e => e.symbol == x.symbol) = true
      · have hup : upsertBySymbol (aggregateBySymbol l) x =
            (aggregateBySymbol l).map
              (fun e => if e.symbol == x.symbol then mergeItem e x else e) := by
          rw [upsertBySymbol, if_pos hany]
        rw [hup, find?_map_mergeF]
        cases hfind : (aggregateBySymbol l).find? (fun r => r.symbol == s) with
        | none => rfl
        | some e =>
          have hesym : e.symbol = s := by simpa using List.find?_some hfind
          have hp : ¬ e.symbol = x.symbol := by
            rw [hesym]
            exact fun h => hx h.symm
          simp [hp]
      · have hup : upsertBySymbol (aggregateBySymbol l) x =
            aggregateBySymbol l ++ [seedItem x] := by
          rw [upsertBySymbol, if_neg hany]
        rw [hup, List.find?_append]
        have hseed : ([seedItem x].find? (fun r => r.symbol == s)) = none := by
          rw [List.find?_eq_none]
          intro r hr
          rcases List.mem_singleton.mp hr with rfl
          simp [seedItem_symbol]
          intro h
          exact hx h
        rw [hseed, Option.or_none]

theorem foldl_symStep_some (t : List DetailedHoldingItem) :
    ∀ y, List.foldl symStep (some y) t = some (List.foldl mergeItem y t) := by
  induction t with
  | nil => intro y; rfl
  | cons z t ih =>
    intro y
    rw [List.foldl_cons, List.foldl_cons]
    exact ih (mergeItem y z)

theorem symFold_cons (x : DetailedHoldingItem) (t : List DetailedHoldingItem) :
    symFold (x :: t) = some (List.foldl mergeItem (seedItem x) t) := by
  rw [symFold, List.foldl_cons]
  exact foldl_symStep_some t (seedItem x)

theorem mergeFold_value (t : List DetailedHoldingItem) :
    ∀ y, (List.foldl mergeItem y t).value_usd = y.value_usd + vSum t := by
  induction t with
  | nil => intro y; simp [vSum, sumOf]
  | cons z t ih =>
    intro y
    rw [List.foldl_cons, ih (mergeItem y z), mergeItem_value, vSum_cons]
    ring

theorem mergeFold_balance (t : List DetailedHoldingItem) :
    ∀ y, (List.foldl mergeItem y t).balance = y.balance + bSum t := by
  induction t with
  | nil => intro y; simp [bSum, sumOf]
  | cons z t ih =>
    intro y
    rw [List.foldl_cons, ih (mergeItem y z), mergeItem_balance, bSum_cons]
    ring

theorem mergeItem_weight (y z : DetailedHoldingItem)
    (hy : 0 ≤ y.value_usd) (hz : 0 ≤ z.value_usd) :
    (mergeItem y z).value_usd * ((mergeItem y z).change_24h.getD 0) =
      y.value_usd * (y.change_24h.getD 0) + z.value_usd * (z.change_24h.getD 0) := by
  rw [mergeItem_value, mergeItem_change]
  by_cases h : 0 < y.value_usd + z.value_usd
  · rw [if_pos h, Option.getD_some]
    field_simp
  · rw [if_neg h, Option.getD_some]
    have hy0 : y.value_usd = 0 := by linarith [not_lt.mp h]
    have hz0 : z.value_usd = 0 := by linarith [not_lt.mp h]
    rw [hy0, hz0]
    ring

theorem mergeFold_weight (t : List DetailedHoldingItem) :
    ∀ y, (∀ r ∈ t, 0 ≤ r.value_usd) → 0 ≤ y.value_usd →
      (List.foldl mergeItem y t).value_usd * ((List.foldl mergeItem y t).change_24h.getD 0) =
        y.value_usd * (y.change_24h.getD 0) + vcSum t := by
  induction t with
  | nil => intro y _ _; simp [vcSum, sumOf]
  | cons z t ih =>
    intro y hall hy
    have hz : 0 ≤ z.value_usd := hall z (by simp)
    have hmerge : 0 ≤ (mergeItem y z).value_usd := by
      rw [mergeItem_value]; linarith
    rw [List.foldl_cons, ih (mergeItem y z) (fun r hr => hall r (by simp [hr])) hmerge,
      mergeItem_weight y z hy hz, vcSum_cons]
    ring

theorem mergeFold_change (t : List DetailedHoldingItem) (y : DetailedHoldingItem)
    (ht : t ≠ []) (hy : 0 ≤ y.value_usd) (hall : ∀ r ∈ t, 0 ≤ r.value_usd) :
    (List.foldl mergeItem y t).change_24h =
      some (if 0 < y.value_usd + vSum t
        then (y.value_usd * (y.change_24h.getD 0) + vcSum t) / (y.value_usd + vSum t)
        else 0) := by
  obtain ⟨t', z, rfl⟩ := (List.eq_nil_or_concat t).resolve_left ht
  rw [List.concat_eq_append] at *
  rw [List.foldl_append, List.foldl_cons, List.foldl_nil]
  have hall' : ∀ r ∈ t', 0 ≤ r.value_usd := fun r hr => hall r (by simp [hr])
  have hEv := mergeFold_value t' y
  have hEw := mergeFold_weight t' y hall' hy
  have h1 : (List.foldl mergeItem y t').value_usd + z.value_usd =
      y.value_usd + vSum (t' ++ [z]) := by
    rw [hEv, vSum_append, vSum_cons]
    simp [vSum, sumOf]
    ring
  have h2 : (List.foldl mergeItem y t').value_usd *
        ((List.foldl mergeItem y t').change_24h.getD 0) +
        z.value_usd * (z.change_24h.getD 0) =
      y.value_usd * (y.change_24h.getD 0) + vcSum (t' ++ [z]) := by
    rw [hEw, vcSum_append, vcSum_cons]
    simp [vcSum, sumOf]
    ring
  rw [mergeItem_change, h2, h1]

theorem mergeFold_price (t : List DetailedHoldingItem) (y : DetailedHoldingItem)
    (ht : t ≠ []) (hbal : 0 < y.balance + bSum t) :
    (List.foldl mergeItem y t).price_usd =
      (y.value_usd + vSum t) / (y.balance + bSum t) := by
  obtain ⟨t', z, rfl⟩ := (List.eq_nil_or_concat t).resolve_left ht
  rw [List.concat_eq_append] at *
  rw [List.foldl_append, List.foldl_cons, List.foldl_nil]
  have hEv := mergeFold_value t' y
  have hEb := mergeFold_balance t' y
  have h1 : (List.foldl mergeItem y t').value_usd + z.value_usd =
      y.value_usd + vSum (t' ++ [z]) := by
    rw [hEv, vSum_append, vSum_cons]
    simp [vSum, sumOf]
    ring
  have h2 : (List.foldl mergeItem y t').balance + z.balance =
      y.balance + bSum (t' ++ [z]) := by
    rw [hEb, bSum_append, bSum_cons]
    simp [bSum, sumOf]
    ring
  rw [mergeItem_price, h2, h1, if_pos hbal]

theorem symFold_view (m : List DetailedHoldingItem) (h2 : 2 ≤ m.length)
    (hval : ∀ r ∈ m, 0 ≤ r.value_usd) (hbal : 0 < bSum m) :
    (symFold m).map aggView =
      some (vSum m, bSum m,
        some (if 0 < vSum m then vcSum m / vSum m else 0),
        vSum m / bSum m) := by
  rcases m with _ | ⟨x, t⟩
  · simp at h2
  · have ht : t ≠ [] := by
      intro h
      subst h
      simp at h2
    rw [symFold_cons]
    have hx0 : 0 ≤ x.value_usd := hval x (by simp)
    have hallt : ∀ r ∈ t, 0 ≤ r.value_usd := fun r hr => hval r (by simp [hr])
    have hseedv : (seedItem x).value_usd = x.value_usd := rfl
    have hseedb : (seedItem x).balance = x.balance := rfl
    have hseedc : (seedItem x).change_24h = x.change_24h := rfl
    have hbal' : 0 < (seedItem x).balance + bSum t := by
      rw [hseedb]
      rw [bSum_cons] at hbal
      linarith
    have hv := mergeFold_value t (seedItem x)
    have hb := mergeFold_balance t (seedItem x)
    have hc := mergeFold_change t (seedItem x) ht (by rw [hseedv]; exact hx0) hallt
    have hp := mergeFold_price t (seedItem x) ht hbal'
    rw [Option.map_some']
    rw [aggView, hv, hb, hc, hp, hseedv, hseedb, hseedc, vSum_cons, bSum_cons, vcSum_cons]

theorem pollStepB_frozen (now : ℤ) (s : SyncStateB) (r : PollResp)
    (h : s.status ≠ "SYNCING") : pollStepB now s r = s := by
  unfold pollStepB
  rw [if_pos (Or.inl h)]

theorem pollStepB_pending_mid (now : ℤ) (s : SyncStateB) (tid : String)
    (h1 : s.status = "SYNCING") (h2 : s.taskId = some tid)
    (h3 : s.pendingCount ≤ 11) :
    pollStepB now s alwaysPending =
      { s with pendingCount := s.pendingCount + 1, syncMessage := "Queued..." } := by
  have hc : ¬(12 < s.pendingCount + 1) := by omega
  simp [pollStepB, alwaysPending, h1, h2, hc]

theorem pollStepB_pending_timeout (now : ℤ) (s : SyncStateB) (tid : String)
    (h1 : s.status = "SYNCING") (h2 : s.taskId = some tid)
    (h3 : s.pendingCount = 12) :
    pollStepB now s alwaysPending =
      { s with
          status := "ERROR"
          taskId := none
          pendingCount := 13
          syncMessage := "Sync Timeout"
          isSyncing := false } := by
  simp [pollStepB, alwaysPending, h1, h2, h3]

theorem iterB_frozen (now : ℤ) :
    ∀ (m : ℕ) (s : SyncStateB), s.status ≠ "SYNCING" →
      (fun s => pollStepB now s alwaysPending)^[m] s = s := by
  intro m
  induction m with
  | zero => intro s _; rfl
  | succ m ih =>
    intro s h
    rw [Function.iterate_succ_apply, pollStepB_frozen now s _ h, ih s h]

theorem iterB_mid (now : ℤ) (tid : String) (ai nt : Option ℤ) :
    ∀ k : ℕ, k ≤ 12 →
      (fun s => pollStepB now s alwaysPending)^[k]
          ⟨"SYNCING", some tid, 0, "Initializing...", true, ai, nt⟩ =
        ⟨"SYNCING", some tid, k, if k = 0 then "Initializing..." else "Queued...", true, ai, nt⟩ := by
  intro k
  induction k with
  | zero => intro _; rfl
  | succ k ih =>
    intro hk
    rw [Function.iterate_succ_apply', ih (by omega),
      pollStepB_pending_mid now _ tid rfl rfl (by simpa using Nat.lt_succ_iff.mp (by omega))]
    simp

theorem attachAuth_url (st : ClientState) (req : ApiRequest) :
    (attachAuth st req).url = req.url := by
  unfold attachAuth
  cases st.token <;> rfl

theorem attachAuth_retryFlag (st : ClientState) (req : ApiRequest) :
    (attachAuth st req).retryFlag = req.retryFlag := by
  unfold attachAuth
  cases st.token <;> rfl

end QuantPulse
namespace QuantPulse

/-- Claim C1: folding two rows with the same symbol yields one aggregate
whose value_usd is the sum of the two values and whose change_24h is the
value-weighted average when the total value is positive and 0 otherwise; in
particular {100 @ +10%} and {300 @ -2%} give value 400 and change 1.0, and
BTC {30000 @ +5%} plus BTC {15000 @ -1%} give balance 0.75, value 45000 and
change 3.0. -/
theorem agg_two_rows_weighted :
    (∀ i1 i2 : DetailedHoldingItem, i1.symbol = i2.symbol →
      (aggregateBySymbol [i1, i2]).map (fun r => (r.value_usd, r.change_24h)) =
        [(i1.value_usd + i2.value_usd,
          some (if 0 < i1.value_usd + i2.value_usd then
              (i1.value_usd * i1.change_24h.getD 0 + i2.value_usd * i2.change_24h.getD 0) /
                (i1.value_usd + i2.value_usd)
            else 0))]) ∧
    (aggregateBySymbol [xRow100, xRow300]).map (fun r => (r.value_usd, r.change_24h)) =
      [(400, some 1)] ∧
    (aggregateBySymbol [btcRowA, btcRowB]).map
        (fun r => (r.balance, r.value_usd, r.change_24h)) = [(3/4, 45000, some 3)] := by
  refine ⟨?_, ?_, ?_⟩
  · intro i1 i2 h
    have h1 : aggregateBySymbol [i1, i2] = [mergeItem (seedItem i1) i2] := by
      simp [aggregateBySymbol, upsertBySymbol, seedItem, h]
    rw [h1]
    simp [mergeItem, seedItem]
  · norm_num [aggregateBySymbol, upsertBySymbol, mergeItem, seedItem, strFalsy, xRow100, xRow300]
  · norm_num [aggregateBySymbol, upsertBySymbol, mergeItem, seedItem, strFalsy, btcRowA, btcRowB]

/-- Witness for C1: the universally quantified part applied to the two
concrete BTC rows, whose symbols agree by rfl, evaluates to the claimed
45000 / +3.0 aggregate. -/
theorem agg_two_rows_weighted_witness :
    (aggregateBySymbol [btcRowA, btcRowB]).map (fun r => (r.value_usd, r.change_24h)) =
      [(45000, some 3)] := by
  rw [agg_two_rows_weighted.1 btcRowA btcRowB rfl]
  norm_num [btcRowA, btcRowB]

/-- Claim C2: the holdings aggregator is idempotent — re-aggregating its own
output returns the same list, labels and numeric fields included. -/
theorem agg_idempotent (items : List DetailedHoldingItem) :
    aggregateBySymbol (aggregateBySymbol items) = aggregateBySymbol items := by
  have hnd := agg_syms_nodup items
  have hlab := agg_labels items
  have := foldl_fixed (aggregateBySymbol items) [] (by simpa [symsOf] using hnd) hlab
  simpa [aggregateBySymbol] using this

/-- Counterexample for C3 as stated: two same-symbol rows with zero balance
and zero value but different unit prices.  The lists are permutations of
each other, yet the aggregated row keeps the first row's price_usd, so the
two orders give price 1 and price 2 respectively. -/
theorem agg_order_dep_price_cex :
    ([zeroBalRow2, zeroBalRow1].Perm [zeroBalRow1, zeroBalRow2]) ∧
    (aggregateBySymbol [zeroBalRow1, zeroBalRow2]).map (fun r => r.price_usd) = [1] ∧
    (aggregateBySymbol [zeroBalRow2, zeroBalRow1]).map (fun r => r.price_usd) = [2] ∧
    (aggregateBySymbol [zeroBalRow1, zeroBalRow2]).map aggView ≠
      (aggregateBySymbol [zeroBalRow2, zeroBalRow1]).map aggView := by
  refine ⟨List.Perm.swap _ _ _, ?_, ?_, ?_⟩ <;>
    norm_num [aggregateBySymbol, upsertBySymbol, mergeItem, seedItem, strFalsy, aggView,
      zeroBalRow1, zeroBalRow2]

/-- Claim C3 (amended): order independence holds once every row has
nonnegative value_usd and every symbol occurring on at least two rows has a
positive total balance.  Under those hypotheses any permutation of the
input yields the same set of output symbols, with equal value_usd, balance,
change_24h and price_usd per symbol (exact rational arithmetic). -/
theorem agg_perm_invariant_of_nonneg (l l' : List DetailedHoldingItem) (hp : l.Perm l')
    (hval : ∀ r ∈ l, 0 ≤ r.value_usd)
    (hmulti : ∀ s : String, 2 ≤ (rowsFor s l).length → 0 < bSum (rowsFor s l)) :
    ∀ s : String,
      (s ∈ symsOf (aggregateBySymbol l) ↔ s ∈ symsOf (aggregateBySymbol l')) ∧
      ((aggregateBySymbol l).find? (fun r => r.symbol == s)).map aggView =
        ((aggregateBySymbol l').find? (fun r => r.symbol == s)).map aggView := by
  intro s
  constructor
  · rw [agg_syms_mem, agg_syms_mem]
    exact (hp.map (fun r => r.symbol)).mem_iff
  rw [find?_aggregate, find?_aggregate]
  have hpr : (rowsFor s l).Perm (rowsFor s l') := hp.filter _
  have hvr : ∀ r ∈ rowsFor s l, 0 ≤ r.value_usd :=
    fun r hr => hval r (List.mem_filter.mp hr).1
  have hvr' : ∀ r ∈ rowsFor s l', 0 ≤ r.value_usd :=
    fun r hr => hval r (hp.mem_iff.mpr (List.mem_filter.mp hr).1)
  rcases hshape : rowsFor s l with _ | ⟨x, t⟩
  · have hnil : rowsFor s l' = [] := by
      rw [hshape] at hpr
      exact hpr.symm.eq_nil
    rw [hnil]
  · rcases t with _ | ⟨z, t2⟩
    · have hone : rowsFor s l' = [x] := by
        rw [hshape] at hpr
        exact List.perm_singleton.mp hpr.symm
      rw [hone]
    · have hlen : 2 ≤ (rowsFor s l).length := by rw [hshape]; simp
      have hlen' : 2 ≤ (rowsFor s l').length := by
        rw [← hpr.length_eq]
        exact hlen
      have hbal : 0 < bSum (rowsFor s l) := hmulti s hlen
      have hbal' : 0 < bSum (rowsFor s l') := by
        rw [show bSum (rowsFor s l') = bSum (rowsFor s l) from (sumOf_perm _ hpr).symm]
        exact hbal
      rw [← hshape]
      rw [symFold_view (rowsFor s l) hlen hvr hbal,
          symFold_view (rowsFor s l') hlen' hvr' hbal',
          show vSum (rowsFor s l') = vSum (rowsFor s l) from (sumOf_perm _ hpr).symm,
          show bSum (rowsFor s l') = bSum (rowsFor s l) from (sumOf_perm _ hpr).symm,
          show vcSum (rowsFor s l') = vcSum (rowsFor s l) from (sumOf_perm _ hpr).symm]

/-- Witness for the amended C3: the two BTC rows in either order give the
same aggregated view for symbol BTC. -/
theorem agg_perm_invariant_witness :
    ("BTC" ∈ symsOf (aggregateBySymbol [btcRowA, btcRowB]) ↔
      "BTC" ∈ symsOf (aggregateBySymbol [btcRowB, btcRowA])) ∧
    ((aggregateBySymbol [btcRowA, btcRowB]).find? (fun r => r.symbol == "BTC")).map aggView =
      ((aggregateBySymbol [btcRowB, btcRowA]).find? (fun r => r.symbol == "BTC")).map aggView := by
  apply agg_perm_invariant_of_nonneg [btcRowA, btcRowB] [btcRowB, btcRowA]
    (List.Perm.swap _ _ _)
  · intro r hr
    rcases List.mem_cons.mp hr with rfl | hr2
    · norm_num [btcRowA]
    · rcases List.mem_singleton.mp (by simpa using hr2) with rfl
      norm_num [btcRowB, btcRowA]
  · intro s hlen
    by_cases h : "BTC" = s
    · subst h
      norm_num [rowsFor, bSum, sumOf, btcRowA, btcRowB]
    · exfalso
      have hb : (("BTC" : String) == s) = false := by simpa using h
      have hempty : rowsFor s [btcRowA, btcRowB] = [] := by
        simp [rowsFor, btcRowA, btcRowB, hb]
      rw [hempty] at hlen
      simp at hlen

end QuantPulse

namespace QuantPulse

/-- Claim C4: while a job is active (status SYNCING) the refresh action —
from a click or the auto-sync timer — issues no job-start request and leaves
the state unchanged, in both deployed widget variants; consequently a
successful start followed by any sequence of refresh invocations issues
exactly one job-start request. -/
theorem single_active_job :
    (∀ (s : SyncStateB) (r : StartResult), s.status = "SYNCING" →
      handleSyncB s r = (s, 0)) ∧
    (∀ (s : SyncStateA) (r : StartResult), s.status = "SYNCING" →
      handleSyncA s r = (s, 0)) ∧
    (∀ (now : ℤ) (s : SyncStateB) (r : StartResult), s.status = "SYNCING" →
      timerTickB now s r = (s, 0)) ∧
    (∀ (s : SyncStateB) (rs : List StartResult), s.status = "SYNCING" →
      runRefreshB s rs = (s, 0)) ∧
    (∀ (s : SyncStateB) (tid : String) (rs : List StartResult), s.status ≠ "SYNCING" →
      (handleSyncB s (.ok tid)).2 = 1 ∧
      (handleSyncB s (.ok tid)).1.status = "SYNCING" ∧
      (handleSyncB s (.ok tid)).1.taskId = some tid ∧
      runRefreshB (handleSyncB s (.ok tid)).1 rs = ((handleSyncB s (.ok tid)).1, 0)) := by
  have hB : ∀ (s : SyncStateB) (r : StartResult), s.status = "SYNCING" →
      handleSyncB s r = (s, 0) := by
    intro s r h
    unfold handleSyncB
    rw [if_pos h]
  have hrun : ∀ (rs : List StartResult) (s : SyncStateB), s.status = "SYNCING" →
      runRefreshB s rs = (s, 0) := by
    intro rs
    induction rs with
    | nil => intro s _; rfl
    | cons r rest ih =>
      intro s h
      simp only [runRefreshB, hB s r h, ih s h]
  refine ⟨hB, ?_, ?_, fun s rs h => hrun rs s h, ?_⟩
  · intro s r h
    unfold handleSyncA
    rw [if_pos (Or.inl h)]
  · intro now s r h
    unfold timerTickB
    cases s.nextAutoSyncTime with
    | none => rfl
    | some nt =>
      have : s.status ≠ "IDLE" := by rw [h]; decide
      simp [this]
  · intro s tid rs h
    have h1 : handleSyncB s (.ok tid) =
        ({ s with
            nextAutoSyncTime := (none : Option ℤ)
            status := "SYNCING"
            syncMessage := "Initializing..."
            isSyncing := true
            taskId := some tid }, 1) := by
      unfold handleSyncB
      rw [if_neg h]
    rw [h1]
    exact ⟨rfl, rfl, rfl, hrun rs _ rfl⟩

/-- Witness for C4 at concrete states: a SYNCING state absorbs clicks,
timer ticks and whole click sequences without issuing a request, and from
IDLE one successful start issues exactly one request after which further
refreshes issue none. -/
theorem single_active_job_witness :
    handleSyncB syncingStateB (.ok "task-2") = (syncingStateB, 0) ∧
    handleSyncA stuckStateA (.ok "task-2") = (stuckStateA, 0) ∧
    timerTickB 0 syncingStateB (.ok "task-2") = (syncingStateB, 0) ∧
    runRefreshB syncingStateB [.ok "a", .failed, .rateLimited none] = (syncingStateB, 0) ∧
    ((handleSyncB idleStateB (.ok "task-9")).2 = 1 ∧
      (handleSyncB idleStateB (.ok "task-9")).1.status = "SYNCING" ∧
      (handleSyncB idleStateB (.ok "task-9")).1.taskId = some "task-9" ∧
      runRefreshB (handleSyncB idleStateB (.ok "task-9")).1 [.ok "b", .ok "c"] =
        ((handleSyncB idleStateB (.ok "task-9")).1, 0)) :=
  ⟨single_active_job.1 _ _ rfl, single_active_job.2.1 _ _ rfl,
    single_active_job.2.2.1 0 _ _ rfl, single_active_job.2.2.2.1 _ _ rfl,
    single_active_job.2.2.2.2 idleStateB "task-9" _ (by decide)⟩

/-- Counterexample for C5 as stated for every deployed variant: the
`SyncWidget.tsx` variant has no PENDING handling, so against an
always-PENDING backend it is still SYNCING with its task id after 13 polls
(and after any number of polls) instead of timing out with ERROR. -/
theorem variantA_pending_forever_cex :
    ((fun s => pollStepA 0 s alwaysPending)^[13] stuckStateA).status = "SYNCING" ∧
    ((fun s => pollStepA 0 s alwaysPending)^[13] stuckStateA).taskId = some "task-1" ∧
    ((fun s => pollStepA 0 s alwaysPending)^[100] stuckStateA = stuckStateA) := by
  have hfix : (fun s => pollStepA 0 s alwaysPending) stuckStateA = stuckStateA := by decide
  have hiter : ∀ n : ℕ, (fun s => pollStepA 0 s alwaysPending)^[n] stuckStateA = stuckStateA :=
    fun n => @Function.iterate_fixed _ (fun s => pollStepA 0 s alwaysPending) stuckStateA hfix n
  refine ⟨?_, ?_, ?_⟩
  · rw [hiter 13]; rfl
  · rw [hiter 13]; rfl
  · rw [hiter 100]

/-- Claim C5 (amended to the variant that implements the stuck-poll
counter, the `ErrorBoundary.tsx` revision): from a fresh SYNCING state an
always-PENDING backend keeps the widget SYNCING for 12 polls, the 13th poll
transitions to ERROR with message "Sync Timeout" and a cleared task id,
every later poll is a no-op (polling stops), and the scheduled revert
callback returns the widget to IDLE. -/
theorem stuck_pending_timeout_variantB (now : ℤ) (tid : String) (ai nt : Option ℤ) :
    (∀ k : ℕ, k ≤ 12 →
      ((fun s => pollStepB now s alwaysPending)^[k]
          ⟨"SYNCING", some tid, 0, "Initializing...", true, ai, nt⟩).status = "SYNCING") ∧
    ((fun s => pollStepB now s alwaysPending)^[13]
        ⟨"SYNCING", some tid, 0, "Initializing...", true, ai, nt⟩ =
      ⟨"ERROR", none, 13, "Sync Timeout", false, ai, nt⟩) ∧
    (∀ n : ℕ, 13 ≤ n →
      (fun s => pollStepB now s alwaysPending)^[n]
          ⟨"SYNCING", some tid, 0, "Initializing...", true, ai, nt⟩ =
        ⟨"ERROR", none, 13, "Sync Timeout", false, ai, nt⟩) ∧
    (errorRevertB ((fun s => pollStepB now s alwaysPending)^[13]
        ⟨"SYNCING", some tid, 0, "Initializing...", true, ai, nt⟩)).status = "IDLE" := by
  have h13 : (fun s => pollStepB now s alwaysPending)^[13]
      ⟨"SYNCING", some tid, 0, "Initializing...", true, ai, nt⟩ =
      ⟨"ERROR", none, 13, "Sync Timeout", false, ai, nt⟩ := by
    have h12 := iterB_mid now tid ai nt 12 (by omega)
    rw [show (13 : ℕ) = 12 + 1 from rfl, Function.iterate_succ_apply', h12,
      pollStepB_pending_timeout now _ tid rfl rfl rfl]
  refine ⟨?_, h13, ?_, ?_⟩
  · intro k hk
    rw [iterB_mid now tid ai nt k hk]
  · intro n hn
    obtain ⟨m, rfl⟩ : ∃ m, n = 13 + m := ⟨n - 13, by omega⟩
    rw [Nat.add_comm, Function.iterate_add_apply, h13, iterB_frozen]
    simp
  · rw [h13]; rfl

/-- Witness for the amended C5 at a concrete run: still SYNCING after 5
polls, timed out after 13, unchanged at 20, reverted to IDLE. -/
theorem stuck_pending_timeout_witness :
    ((fun s => pollStepB 0 s alwaysPending)^[5]
        ⟨"SYNCING", some "task-1", 0, "Initializing...", true, none, none⟩).status =
      "SYNCING" ∧
    ((fun s => pollStepB 0 s alwaysPending)^[13]
        ⟨"SYNCING", some "task-1", 0, "Initializing...", true, none, none⟩ =
      ⟨"ERROR", none, 13, "Sync Timeout", false, none, none⟩) ∧
    ((fun s => pollStepB 0 s alwaysPending)^[20]
        ⟨"SYNCING", some "task-1", 0, "Initializing...", true, none, none⟩ =
      ⟨"ERROR", none, 13, "Sync Timeout", false, none, none⟩) ∧
    (errorRevertB ((fun s => pollStepB 0 s alwaysPending)^[13]
        ⟨"SYNCING", some "task-1", 0, "Initializing...", true, none, none⟩)).status =
      "IDLE" :=
  ⟨(stuck_pending_timeout_variantB 0 "task-1" none none).1 5 (by norm_num),
    (stuck_pending_timeout_variantB 0 "task-1" none none).2.1,
    (stuck_pending_timeout_variantB 0 "task-1" none none).2.2.1 20 (by norm_num),
    (stuck_pending_timeout_variantB 0 "task-1" none none).2.2.2⟩

end QuantPulse

namespace QuantPulse

/-- Claim C6: a non-auth request that is not yet retried and fails with 401
triggers exactly one refresh with the stored refresh token, is replayed
exactly once — marked as retried and carrying the new access token — and
the caller transparently observes the replay's 200 result while both new
tokens and the default header are stored. -/
theorem refresh_retry_once (url t0 rt na nr : String) (errBody okBody : ℕ)
    (st : ClientState)
    (h1 : jsIncludes url "/auth/token" = false)
    (h2 : jsIncludes url "/auth/register" = false)
    (htok : st.token = some t0)
    (hrt : st.refreshToken = some rt) :
    apiCall (onceFlaky errBody okBody na nr) 0 st
        { url := url, retryFlag := false, authHeader := none } =
      { server := 2
        client := { st with
          token := some na
          refreshToken := some nr
          defaultAuth := some ("Bearer " ++ na) }
        outcome := .ok (200, okBody)
        sent := [{ url := url, retryFlag := false, authHeader := some ("Bearer " ++ t0) },
                 { url := url, retryFlag := true, authHeader := some ("Bearer " ++ na) }]
        refreshSent := [rt] } := by
  simp [apiCall, apiReplay, attachAuth, onceFlaky, htok, hrt, h1, h2]

/-- Witness for C6 at a concrete dashboard call against the
401-once-then-200 backend. -/
theorem refresh_retry_once_witness :
    apiCall (onceFlaky 11 77 "newA" "newR") 0
        ⟨some "oldA", some "oldR", none, none⟩
        ⟨"/dashboard/holdings", false, none⟩ =
      ⟨2, ⟨some "newA", some "newR", some "Bearer newA", none⟩, .ok (200, 77),
        [⟨"/dashboard/holdings", false, some "Bearer oldA"⟩,
         ⟨"/dashboard/holdings", true, some "Bearer newA"⟩], ["oldR"]⟩ :=
  refresh_retry_once "/dashboard/holdings" "oldA" "oldR" "newA" "newR" 11 77
    ⟨some "oldA", some "oldR", none, none⟩ rfl rfl rfl rfl

/-- Claim C7: when the 401 refresh path finds no stored refresh token, or
the refresh call itself fails, both tokens are removed, navigation is
forced to /login, the original request is not retried (one request sent, at
most one refresh call), and the caller's promise rejects with the error of
the failing step. -/
theorem refresh_failure_redirect (url rt : String) (errBody eid : ℕ) (st st' : ClientState)
    (h1 : jsIncludes url "/auth/token" = false)
    (h2 : jsIncludes url "/auth/register" = false)
    (hnone : st.refreshToken = none)
    (hrt : st'.refreshToken = some rt) :
    (apiCall (always401 errBody (.error eid)) 0 st
        { url := url, retryFlag := false, authHeader := none } =
      { server := 1
        client := { st with token := none, refreshToken := none, location := some "/login" }
        outcome := .error (.httpErr (some 401) errBody)
        sent := [attachAuth st { url := url, retryFlag := false, authHeader := none }]
        refreshSent := [] }) ∧
    (apiCall (always401 errBody (.error eid)) 0 st'
        { url := url, retryFlag := false, authHeader := none } =
      { server := 1
        client := { st' with token := none, refreshToken := none, location := some "/login" }
        outcome := .error (.refreshErr eid)
        sent := [attachAuth st' { url := url, retryFlag := false, authHeader := none }]
        refreshSent := [rt] }) := by
  constructor
  · simp [apiCall, always401, hnone, h1, h2, attachAuth_url, attachAuth_retryFlag]
  · simp [apiCall, always401, hrt, h1, h2, attachAuth_url, attachAuth_retryFlag]

/-- Witness for C7 at a concrete call to /users/me: the missing-token branch
rejects with the original 401 and the failing-refresh branch rejects with
the refresh error; both clear the tokens and redirect. -/
theorem refresh_failure_redirect_witness :
    (apiCall (always401 11 (.error 99)) 0 ⟨some "A", none, none, none⟩
        ⟨"/users/me", false, none⟩ =
      ⟨1, ⟨none, none, none, some "/login"⟩, .error (.httpErr (some 401) 11),
        [⟨"/users/me", false, some "Bearer A"⟩], []⟩) ∧
    (apiCall (always401 11 (.error 99)) 0 ⟨some "A", some "oldR", none, none⟩
        ⟨"/users/me", false, none⟩ =
      ⟨1, ⟨none, none, none, some "/login"⟩, .error (.refreshErr 99),
        [⟨"/users/me", false, some "Bearer A"⟩], ["oldR"]⟩) :=
  refresh_failure_redirect "/users/me" "oldR" 11 99
    ⟨some "A", none, none, none⟩ ⟨some "A", some "oldR", none, none⟩ rfl rfl rfl rfl

end QuantPulse

namespace QuantPulse

/-- Counterexample for C8 as stated: in the last-sync-anchored variant with
L = 300 s and reference (last-sync) time T = 1000 ms, the computed next
instant 301000 ms is not a multiple of L relative to epoch. -/
theorem anchored_not_epoch_multiple_cex :
    (0 : ℤ) < 300 ∧ ¬ ((300 * 1000 : ℤ) ∣ nextAutoSyncAnchored 1000 300) := by
  refine ⟨by norm_num, ?_⟩
  have hval : nextAutoSyncAnchored 1000 300 = 301000 := by
    norm_num [nextAutoSyncAnchored]
  rw [hval]
  rintro ⟨k, hk⟩
  omega

/-- Claim C8 (amended per deployed variant): for L > 0, the epoch-anchored
formula yields a multiple of L·1000 ms, strictly after T, at least T+1000,
and minimal among such interval boundaries; the last-sync-anchored formula
yields T + L·1000, the smallest instant of the form T + k·L·1000 (k ≥ 1)
strictly after T. -/
theorem auto_sync_cadence_per_variant (L T : ℤ) (hL : 0 < L) :
    (L * 1000 ∣ nextAutoSyncEpoch T L) ∧
    T < nextAutoSyncEpoch T L ∧
    T + 1000 ≤ nextAutoSyncEpoch T L ∧
    (∀ m : ℤ, L * 1000 ∣ m → T + 1000 ≤ m → nextAutoSyncEpoch T L ≤ m) ∧
    T < nextAutoSyncAnchored T L ∧
    (∀ k : ℤ, 1 ≤ k → nextAutoSyncAnchored T L ≤ T + k * (L * 1000)) := by
  have hm0 : (0 : ℤ) < L * 1000 := by positivity
  have hmQ : (0 : ℚ) < ((L * 1000 : ℤ) : ℚ) := by exact_mod_cast hm0
  have hceil : ((T + 1000 : ℤ) : ℚ) / ((L * 1000 : ℤ) : ℚ) ≤
      (⌈((T + 1000 : ℤ) : ℚ) / ((L * 1000 : ℤ) : ℚ)⌉ : ℚ) := Int.le_ceil _
  have hlow : T + 1000 ≤ nextAutoSyncEpoch T L := by
    rw [nextAutoSyncEpoch]
    have h2 := (div_le_iff₀ hmQ).mp hceil
    exact_mod_cast h2
  refine ⟨dvd_mul_left _ _, by linarith, hlow, ?_, ?_, ?_⟩
  · intro m hdvd hge
    obtain ⟨k, rfl⟩ := hdvd
    have hz : (T + 1000 : ℤ) ≤ k * (L * 1000) := by linarith [hge]
    have hk : ((T + 1000 : ℤ) : ℚ) / ((L * 1000 : ℤ) : ℚ) ≤ (k : ℚ) := by
      rw [div_le_iff₀ hmQ]
      exact_mod_cast hz
    have hq := Int.ceil_le.mpr hk
    have : ⌈((T + 1000 : ℤ) : ℚ) / ((L * 1000 : ℤ) : ℚ)⌉ * (L * 1000) ≤ k * (L * 1000) :=
      mul_le_mul_of_nonneg_right hq (le_of_lt hm0)
    calc nextAutoSyncEpoch T L ≤ k * (L * 1000) := this
      _ = L * 1000 * k := mul_comm _ _
  · show T < T + L * 1000
    linarith
  · intro k hk
    show T + L * 1000 ≤ T + k * (L * 1000)
    nlinarith

/-- Witness for the amended C8 at L = 300 s, T = 1000 ms: the epoch-anchored
instant is an interval multiple strictly after T, at least T+1s, and no
later than the boundary 600000; the anchored instant is strictly after T
and no later than the second anchored boundary. -/
theorem auto_sync_cadence_witness :
    ((300 * 1000 : ℤ) ∣ nextAutoSyncEpoch 1000 300) ∧
    (1000 : ℤ) < nextAutoSyncEpoch 1000 300 ∧
    (1000 + 1000 : ℤ) ≤ nextAutoSyncEpoch 1000 300 ∧
    nextAutoSyncEpoch 1000 300 ≤ 600000 ∧
    (1000 : ℤ) < nextAutoSyncAnchored 1000 300 ∧
    nextAutoSyncAnchored 1000 300 ≤ 1000 + 2 * (300 * 1000) := by
  have h := auto_sync_cadence_per_variant 300 1000 (by norm_num)
  exact ⟨h.1, h.2.1, h.2.2.1,
    h.2.2.2.1 600000 (by norm_num) (by norm_num),
    h.2.2.2.2.1, h.2.2.2.2.2 2 (by norm_num)⟩

/-- Claim C9: the aggregator emits exactly one row per distinct input
symbol (case-sensitive), and every output row — merged or not — carries
integration_name "Multiple" and provider_id "multiple". -/
theorem agg_one_row_per_symbol (items : List DetailedHoldingItem) :
    (symsOf (aggregateBySymbol items)).Nodup ∧
    (∀ s, s ∈ symsOf (aggregateBySymbol items) ↔ s ∈ symsOf items) ∧
    (∀ r ∈ aggregateBySymbol items,
      r.integration_name = "Multiple" ∧ r.provider_id = "multiple") :=
  ⟨agg_syms_nodup items, agg_syms_mem items, agg_labels items⟩

/-- Witness for C9 on a single-row input: symbols are deduplicated, the
output symbol set matches the input, and the lone (never merged) row still
carries the sentinel labels. -/
theorem agg_one_row_per_symbol_witness :
    (symsOf (aggregateBySymbol [xRow100])).Nodup ∧
    ("X" ∈ symsOf (aggregateBySymbol [xRow100]) ↔ "X" ∈ symsOf [xRow100]) ∧
    ((seedItem xRow100).integration_name = "Multiple" ∧
      (seedItem xRow100).provider_id = "multiple") := by
  have hmem : seedItem xRow100 ∈ aggregateBySymbol [xRow100] := by
    rw [show aggregateBySymbol [xRow100] = [seedItem xRow100] from rfl]
    exact List.mem_singleton_self _
  exact ⟨(agg_one_row_per_symbol [xRow100]).1,
    (agg_one_row_per_symbol [xRow100]).2.1 "X",
    (agg_one_row_per_symbol [xRow100]).2.2 (seedItem xRow100) hmem⟩

/-- Claim C10: aggregation conserves the portfolio totals — the sums of
value_usd and of balance over the output equal those over the input. -/
theorem agg_preserves_totals (items : List DetailedHoldingItem) :
    sumOf (fun r => r.value_usd) (aggregateBySymbol items) =
      sumOf (fun r => r.value_usd) items ∧
    sumOf (fun r => r.balance) (aggregateBySymbol items) =
      sumOf (fun r => r.balance) items := by
  constructor
  · have := foldl_sumOf (fun r => r.value_usd) (fun e x => rfl) (fun x => rfl) items []
      (by simp [symsOf])
    simpa [aggregateBySymbol, sumOf] using this
  · have := foldl_sumOf (fun r => r.balance) (fun e x => rfl) (fun x => rfl) items []
      (by simp [symsOf])
    simpa [aggregateBySymbol, sumOf] using this

end QuantPulse
